import Mathlib

set_option maxRecDepth 8000

namespace Captura

/-! ## JavaScript string primitives

Shallow embedding of the JavaScript string operations used by the sources,
over `List Char`.  `lowerC` models `String.prototype.toLowerCase` on the
character range occurring in the sources (ASCII plus Latin-1 letters);
`isJsWs` models the character class `\s` of JavaScript regular expressions,
which coincides with the set trimmed by `String.prototype.trim`. -/

def lowerC (c : Char) : Char :=
  if 'A' ≤ c ∧ c ≤ 'Z' then Char.ofNat (c.toNat + 32)
  else if 0xC0 ≤ c.toNat ∧ c.toNat ≤ 0xDE ∧ c.toNat ≠ 0xD7 then Char.ofNat (c.toNat + 32)
  else c

def isJsWs (c : Char) : Bool :=
  c = ' ' || c = '\t' || c = '\n' || c.toNat = 0x0B || c.toNat = 0x0C || c = '\r' ||
  c.toNat = 0xA0 || c.toNat = 0x1680 || (0x2000 ≤ c.toNat && c.toNat ≤ 0x200A) ||
  c.toNat = 0x2028 || c.toNat = 0x2029 || c.toNat = 0x202F || c.toNat = 0x205F ||
  c.toNat = 0x3000 || c.toNat = 0xFEFF

/-- JavaScript `s.trim()`: drop JS whitespace from both ends. -/
def jsTrim (s : List Char) : List Char :=
  ((s.dropWhile isJsWs).reverse.dropWhile isJsWs).reverse

/-- Is `needle` a (case-sensitive) prefix of `hay`? -/
def prefOf : List Char → List Char → Bool
  | [], _ => true
  | _ :: _, [] => false
  | a :: as, b :: bs => a = b && prefOf as bs

/-- JavaScript `hay.includes(needle)` (case-sensitive substring test). -/
def containsSub (needle : List Char) : List Char → Bool
  | [] => needle.isEmpty
  | c :: cs => prefOf needle (c :: cs) || containsSub needle cs

def lowerL (s : List Char) : List Char := s.map lowerC

/-- JavaScript truthiness-based `a || b` on strings: the empty string is falsy. -/
def jsOrS (a b : String) : String := if a = "" then b else a

/-- JavaScript `a || b` where `a` is a possibly-null string. -/
def jsOrO (a : Option String) (b : String) : String :=
  match a with
  | some s => jsOrS s b
  | none => b

def strTrim (s : String) : String := String.mk (jsTrim s.data)

/-! ## Data model

`Acordao` transcribes the `Acordao` interface of `src/types.ts` (string
fields, string lists, optional `fileName`).  `ExtractionResult` transcribes
the `ExtractionResult` interface. -/

structure Acordao where
  id : String
  ecli : String
  relator : String
  descritores : List String
  processo : String
  data : String
  sumario : String
  textoIntegral : String
  adjuntos : List String
  url : String
  fileName : Option String := none
  deriving DecidableEq, Repr

structure ExtractionResult where
  success : Bool
  data : Option Acordao := none
  error : Option String := none
  deriving DecidableEq, Repr

/-! ## Association-list primitives for the two storage backends

The virtual backend is IndexedDB object stores with `put` (upsert by key)
and `getAll`; the direct-handle backend is a directory of files where
`getFileHandle(name, create) + write` overwrites the file with that name.
Both are modelled as association lists with in-place upsert. -/

def upsert (k : String) (v : α) : List (String × α) → List (String × α)
  | [] => [(k, v)]
  | (k', v') :: rest => if k' = k then (k, v) :: rest else (k', v') :: upsert k v rest

def eraseKey (k : String) : List (String × α) → List (String × α)
  | [] => []
  | (k', v') :: rest => if k' = k then rest else (k', v') :: eraseKey k rest

def lookupKey (k : String) : List (String × α) → Option α
  | [] => none
  | (k', v') :: rest => if k' = k then some v' else lookupKey k rest

theorem lookupKey_upsert_self (k : String) (v : α) (l : List (String × α)) :
    lookupKey k (upsert k v l) = some v := by
  induction l with
  | nil => simp [upsert, lookupKey]
  | cons hd tl ih =>
    obtain ⟨k', v'⟩ := hd
    by_cases h : k' = k
    · simp [upsert, lookupKey, h]
    · simp [upsert, lookupKey, h, ih]

theorem eraseKey_upsert_fresh (k : String) (v : α) (l : List (String × α))
    (h : lookupKey k l = none) : eraseKey k (upsert k v l) = l := by
  induction l with
  | nil => simp [upsert, eraseKey]
  | cons hd tl ih =>
    obtain ⟨k', v'⟩ := hd
    by_cases hk : k' = k
    · simp [lookupKey, hk] at h
    · simp only [lookupKey, if_neg hk] at h
      simp [upsert, eraseKey, hk, ih h]

theorem lookupKey_eraseKey_upsert_fresh (k : String) (v : α) (l : List (String × α))
    (h : lookupKey k l = none) : lookupKey k (eraseKey k (upsert k v l)) = none := by
  rw [eraseKey_upsert_fresh k v l h]; exact h

/-! ## Persistent store, direct-handle (native) backend

Transcribed from `src/services/storageService.ts` (class `StorageService`,
non-fallback paths).  Processed records are written to a file named by the
sanitized `ecli` truncated to 100 characters (line 108); listing walks the
`.json` files, parses them, and keeps an entry only when `data.ecli ||
data.processo` is truthy (line 136).  A JSON file written by
`saveProcessedAcordao` round-trips to the same record, so files hold
`Acordao` values directly. -/

def sanitizeChar (c : Char) : Char :=
  if c = ':' || c = '/' || c = '\\' || c = '?' || c = '%' || c = '*' ||
     c = '|' || c = '"' || c = '<' || c = '>' then '_' else c

/-- File name used by `storageService.ts` line 108:
`acordao.ecli.replace(/[:/\\?%*|"<>]/g, '_').substring(0, 100)`. -/
def safeNameV1 (ecli : String) : String := String.mk ((ecli.data.map sanitizeChar).take 100)

/-- File name used by `src/unnamed/part_000` line 121 (no truncation). -/
def safeNameP0 (ecli : String) : String := String.mk (ecli.data.map sanitizeChar)

structure NativeStore where
  jsonFiles : List (String × Acordao) := []
  txtFiles : List (String × String) := []
  deriving DecidableEq, Repr

def NativeStore.saveProcessedAcordao (s : NativeStore) (a : Acordao) : NativeStore :=
  { s with jsonFiles := upsert (safeNameV1 a.ecli) a s.jsonFiles }

def NativeStore.listProcessedAcordaos (s : NativeStore) : List Acordao :=
  (s.jsonFiles.map Prod.snd).filter (fun a => a.ecli != "" || a.processo != "")

def NativeStore.saveRawTxt (s : NativeStore) (name content : String) : NativeStore :=
  { s with txtFiles := upsert name content s.txtFiles }

def NativeStore.deleteRawFile (s : NativeStore) (name : String) : NativeStore :=
  { s with txtFiles := eraseKey name s.txtFiles }

/-! ## Persistent store, virtual (IndexedDB) backend

Transcribed from the fallback paths of `storageService.ts`: object store
`acordaos` with `keyPath: 'id'` (initDB, line 16), `put` upserts by
`record.id`, `getAll` returns every stored record with no filtering. -/

structure VirtualStore where
  acordaos : List (String × Acordao) := []
  rawFiles : List (String × String) := []
  deriving DecidableEq, Repr

def VirtualStore.saveProcessedAcordao (s : VirtualStore) (a : Acordao) : VirtualStore :=
  { s with acordaos := upsert a.id a s.acordaos }

def VirtualStore.listProcessedAcordaos (s : VirtualStore) : List Acordao :=
  s.acordaos.map Prod.snd

def VirtualStore.saveRawTxt (s : VirtualStore) (name content : String) : VirtualStore :=
  { s with rawFiles := upsert name content s.rawFiles }

def VirtualStore.deleteRawFile (s : VirtualStore) (name : String) : VirtualStore :=
  { s with rawFiles := eraseKey name s.rawFiles }

/-! ## Backend selection -/

inductive Mode where
  | native
  | virtual
  deriving DecidableEq, Repr

structure SelectResult where
  success : Bool
  mode : Mode
  deriving DecidableEq, Repr

/-- Outcome of `window.showDirectoryPicker()`: either a directory handle is
granted, or the call rejects with a DOMException/TypeError carrying a name
and a message. -/
inductive PickerOutcome where
  | granted
  | errored (name msg : String)
  deriving DecidableEq, Repr

/-- `selectDirectory` of `src/services/storageService.ts` lines 30-44:
any picker failure falls into the catch-all, which initializes the
IndexedDB fallback and reports `{success: true, mode: 'virtual'}`.
(The IndexedDB open is modelled as succeeding.) -/
def selectDirectoryV1 : PickerOutcome → SelectResult
  | .granted => ⟨true, .native⟩
  | .errored _ _ => ⟨true, .virtual⟩

/-- `selectDirectory` of `src/unnamed/part_000` lines 29-43: only errors
named `SecurityError` or `NotAllowedError`, or whose message contains
`cross origin`, fall back to the virtual mode with success; every other
error yields `{success: false, mode: 'virtual'}`. -/
def selectDirectoryPart0 : PickerOutcome → SelectResult
  | .granted => ⟨true, .native⟩
  | .errored n m =>
    if n = "SecurityError" || n = "NotAllowedError" ||
       containsSub "cross origin".data m.data
    then ⟨true, .virtual⟩ else ⟨false, .virtual⟩

/-! ## Claim C2 — upsert idempotence keyed by id -/

def c2r1 : Acordao :=
  { id := "X", ecli := "ECLI:PT:STJ:2020:1:1", relator := "R", descritores := [],
    processo := "55/20", data := "2020-01-01", sumario := "", textoIntegral := "",
    adjuntos := [], url := "" }

def c2r2 : Acordao :=
  { id := "X", ecli := "ECLI:PT:STJ:2021:2:2", relator := "R2", descritores := [],
    processo := "77/21", data := "2021-01-01", sumario := "", textoIntegral := "",
    adjuntos := [], url := "" }

/-- Claim C2 is false on the direct-handle backend: the records `c2r1` and
`c2r2` share `id = "X"` but have different `ecli` values, and saving both
from the empty native store leaves two stored entries whose record id is
`"X"`, not one. -/
theorem c2_counterexample :
    c2r1.id = c2r2.id ∧
    ((NativeStore.saveProcessedAcordao (NativeStore.saveProcessedAcordao {} c2r1)
        c2r2).listProcessedAcordaos.filter (fun a => a.id == "X")).length = 2 := by
  constructor
  · rfl
  · rfl

/-- Claim C2, amended: after `saveProcessedAcordao(r1)` then
`saveProcessedAcordao(r2)` with `r1.id = r2.id`, the virtual backend always
holds exactly the entry `r2`; the direct-handle backend does so provided the
two records also share the same `ecli` (its actual key) and `r2` passes the
listing filter (nonempty `ecli` or `processo`). -/
theorem c2_amended (r1 r2 : Acordao) (hid : r1.id = r2.id) :
    (VirtualStore.saveProcessedAcordao (VirtualStore.saveProcessedAcordao {} r1)
        r2).listProcessedAcordaos = [r2] ∧
    (r1.ecli = r2.ecli → (r2.ecli ≠ "" ∨ r2.processo ≠ "") →
      (NativeStore.saveProcessedAcordao (NativeStore.saveProcessedAcordao {} r1)
          r2).listProcessedAcordaos = [r2]) := by
  constructor
  · simp [VirtualStore.saveProcessedAcordao, VirtualStore.listProcessedAcordaos,
          upsert, hid]
  · intro hecli hfil
    have hsafe : safeNameV1 r1.ecli = safeNameV1 r2.ecli := by rw [hecli]
    simp only [NativeStore.saveProcessedAcordao, NativeStore.listProcessedAcordaos,
               upsert, hsafe, if_pos rfl]
    have : (r2.ecli != "" || r2.processo != "") = true := by
      rcases hfil with h | h
      · simp [bne_iff_ne, h]
      · simp [bne_iff_ne, h]
    simp [this]

/-- Witness for `c2_amended` at the concrete pair of records that share
both `id` and `ecli`. -/
theorem c2_amended_witness :
    (VirtualStore.saveProcessedAcordao (VirtualStore.saveProcessedAcordao {} c2r1)
        { c2r1 with relator := "S" }).listProcessedAcordaos =
      [{ c2r1 with relator := "S" }] ∧
    (NativeStore.saveProcessedAcordao (NativeStore.saveProcessedAcordao {} c2r1)
        { c2r1 with relator := "S" }).listProcessedAcordaos =
      [{ c2r1 with relator := "S" }] := by
  have h := c2_amended c2r1 { c2r1 with relator := "S" } rfl
  exact ⟨h.1, h.2 rfl (Or.inl (by decide))⟩

/-! ## Claim C3 — save/list round-trip on both backends -/

def c3blank : Acordao :=
  { id := "synthetic-1", ecli := "", relator := "R", descritores := [],
    processo := "", data := "2020-01-01", sumario := "", textoIntegral := "t",
    adjuntos := [], url := "u" }

/-- Claim C3 is false as stated: for the record `c3blank` (empty `ecli` and
`processo`), the virtual backend lists it back after saving, but the
direct-handle backend's listing filter (`data.ecli || data.processo`,
storageService.ts line 136) skips it, so the two backends are
distinguishable through save/list. -/
theorem c3_counterexample :
    c3blank ∈ (VirtualStore.saveProcessedAcordao {} c3blank).listProcessedAcordaos ∧
    c3blank ∉ (NativeStore.saveProcessedAcordao {} c3blank).listProcessedAcordaos := by
  constructor
  · decide
  · decide

/-- Claim C3, amended: `listProcessedAcordaos` after `saveProcessedAcordao(r)`
contains `r` unconditionally on the virtual backend, and on the direct-handle
backend whenever `r` has a nonempty `ecli` or a nonempty `processo` (the
native listing filter). -/
theorem c3_amended (r : Acordao) :
    r ∈ (VirtualStore.saveProcessedAcordao {} r).listProcessedAcordaos ∧
    (r.ecli ≠ "" ∨ r.processo ≠ "" →
      r ∈ (NativeStore.saveProcessedAcordao {} r).listProcessedAcordaos) := by
  constructor
  · simp [VirtualStore.saveProcessedAcordao, VirtualStore.listProcessedAcordaos, upsert]
  · intro hfil
    have : (r.ecli != "" || r.processo != "") = true := by
      rcases hfil with h | h
      · simp [bne_iff_ne, h]
      · simp [bne_iff_ne, h]
    simp [NativeStore.saveProcessedAcordao, NativeStore.listProcessedAcordaos,
          upsert, this]

/-- Witness for `c3_amended` at the concrete record `c2r1`. -/
theorem c3_amended_witness :
    c2r1 ∈ (VirtualStore.saveProcessedAcordao {} c2r1).listProcessedAcordaos ∧
    c2r1 ∈ (NativeStore.saveProcessedAcordao {} c2r1).listProcessedAcordaos := by
  have h := c3_amended c2r1
  exact ⟨h.1, h.2 (Or.inl (by decide))⟩

/-! ## Claim C10 — the two backends key processed records differently -/

/-- Claim C10: for records sharing an `ecli` but with distinct `id`s, the
direct-handle backend (file named by the sanitized, 100-character-truncated
`ecli`) keeps a single entry, the second record overwriting the first, while
the virtual backend (keyed by the unsanitized `id`) keeps both. -/
theorem c10_keying (r1 r2 : Acordao) (hecli : r1.ecli = r2.ecli)
    (hid : r1.id ≠ r2.id) :
    (NativeStore.saveProcessedAcordao (NativeStore.saveProcessedAcordao {} r1)
        r2).jsonFiles = [(safeNameV1 r2.ecli, r2)] ∧
    (VirtualStore.saveProcessedAcordao (VirtualStore.saveProcessedAcordao {} r1)
        r2).acordaos = [(r1.id, r1), (r2.id, r2)] := by
  constructor
  · have hsafe : safeNameV1 r1.ecli = safeNameV1 r2.ecli := by rw [hecli]
    simp [NativeStore.saveProcessedAcordao, upsert, hsafe]
  · simp [VirtualStore.saveProcessedAcordao, upsert, hid]

/-- Witness for `c10_keying` at a concrete pair: same `ecli`, ids `X`/`Y`.
One file on the native side, two rows on the virtual side. -/
theorem c10_keying_witness :
    (NativeStore.saveProcessedAcordao (NativeStore.saveProcessedAcordao {} c2r1)
        { c2r1 with id := "Y" }).jsonFiles =
      [(safeNameV1 c2r1.ecli, { c2r1 with id := "Y" })] ∧
    (VirtualStore.saveProcessedAcordao (VirtualStore.saveProcessedAcordao {} c2r1)
        { c2r1 with id := "Y" }).acordaos =
      [(c2r1.id, c2r1), ("Y", { c2r1 with id := "Y" })] := by
  exact c10_keying c2r1 { c2r1 with id := "Y" } rfl (by decide)

/-! ## Claim C8 — silent fallback to the virtual backend -/

/-- Claim C8 is false for the `part_000` iteration: an unavailability error
(`TypeError`, as thrown when `showDirectoryPicker` does not exist) makes its
`selectDirectory` return `{success: false, mode: 'virtual'}`, not the claimed
`{success: true, mode: 'virtual'}`. -/
theorem c8_counterexample :
    selectDirectoryPart0
        (.errored "TypeError" "window.showDirectoryPicker is not a function") =
      ⟨false, .virtual⟩ ∧
    selectDirectoryPart0
        (.errored "TypeError" "window.showDirectoryPicker is not a function") ≠
      ⟨true, .virtual⟩ := by
  constructor
  · decide
  · decide

/-- Claim C8, amended: the current `storageService.ts` implementation maps
every picker failure to `{success: true, mode: 'virtual'}`; the `part_000`
iteration does so only for failures named `SecurityError` or
`NotAllowedError` or whose message mentions `cross origin`, returning
`{success: false, mode: 'virtual'}` (still without throwing) otherwise. -/
theorem c8_amended :
    (∀ n m : String, selectDirectoryV1 (.errored n m) = ⟨true, .virtual⟩) ∧
    (∀ n m : String,
      n = "SecurityError" ∨ n = "NotAllowedError" ∨
        containsSub "cross origin".data m.data = true →
      selectDirectoryPart0 (.errored n m) = ⟨true, .virtual⟩) := by
  constructor
  · intro n m
    rfl
  · intro n m h
    rcases h with h | h | h
    · simp [selectDirectoryPart0, h]
    · simp [selectDirectoryPart0, h]
    · simp [selectDirectoryPart0, h]

/-- Witness for `c8_amended` at a concrete denial error. -/
theorem c8_amended_witness :
    selectDirectoryV1 (.errored "AbortError" "user dismissed") = ⟨true, .virtual⟩ ∧
    selectDirectoryPart0 (.errored "NotAllowedError" "denied") = ⟨true, .virtual⟩ := by
  exact ⟨c8_amended.1 "AbortError" "user dismissed",
         c8_amended.2 "NotAllowedError" "denied" (Or.inr (Or.inl rfl))⟩

/-! ## Ingestion orchestrator: clipboard dedup (claim C4)

`handleClipboardCheck` transcribes `src/App.tsx` lines 37-49: the check is
skipped when no folder is selected or a capture modal is already open; it
returns early when the clipboard is empty, equal to
`lastProcessedContent.current`, or shorter than 1000 characters; otherwise,
when the text contains one of the marker keywords, the dedup reference is
set to the text and the capture modal opens. -/

structure OrchState where
  isFolderSelected : Bool
  capturedText : Option String
  lastProcessedContent : String
  deriving DecidableEq, Repr

def looksLikeAcordao (t : String) : Bool :=
  containsSub "Acórdão".data t.data || containsSub "Processo".data t.data ||
  containsSub "Relator".data t.data || containsSub "ECLI:".data t.data

def handleClipboardCheck (s : OrchState) (clip : String) : OrchState :=
  if s.isFolderSelected = false ∨ s.capturedText.isSome then s
  else if clip = "" ∨ clip = s.lastProcessedContent ∨ clip.length < 1000 then s
  else if looksLikeAcordao clip then
    { s with lastProcessedContent := clip, capturedText := some clip }
  else s

/-- Session-level model around `handleClipboardCheck`: `confirm` models the
success path of `handleConfirmCapture` (closes the modal and marks the
captured candidate as successfully processed; it does not touch
`lastProcessedContent`), `cancel` models dismissing the modal.  `lastOk`
is a ghost field recording the last successfully processed candidate and
`triggers` a ghost counter of capture triggers. -/
inductive OrchEvent where
  | check (t : String)
  | confirm
  | cancel
  deriving DecidableEq, Repr

structure Session where
  st : OrchState
  lastOk : Option String
  triggers : Nat
  deriving DecidableEq, Repr

def orchStep (s : Session) : OrchEvent → Session
  | .check t =>
    let st' := handleClipboardCheck s.st t
    { s with st := st',
             triggers := s.triggers + (if st'.capturedText ≠ s.st.capturedText then 1 else 0) }
  | .confirm =>
    match s.st.capturedText with
    | some t => { st := { s.st with capturedText := none }, lastOk := some t,
                  triggers := s.triggers }
    | none => s
  | .cancel => { s with st := { s.st with capturedText := none } }

def orchRun (s : Session) : List OrchEvent → Session
  | [] => s
  | e :: es => orchRun (orchStep s e) es

def c4t1 : String := "Relator" ++ String.mk (List.replicate 1000 'a')

def c4t2 : String := "Relator" ++ String.mk (List.replicate 1000 'b')

def c4s0 : Session := ⟨⟨true, none, ""⟩, none, 0⟩

def c4trace : List OrchEvent := [.check c4t1, .confirm, .check c4t2, .cancel]

/-- Claim C4 is false as stated: after processing `c4t1` successfully, then
detecting and dismissing a different candidate `c4t2`, the candidate `c4t1`
is again read on a trigger event.  It is identical to the last successfully
processed candidate (`lastOk = some c4t1`), yet the orchestrator does not
return to idle: it opens a new capture (the dedup reference holds the last
detected candidate `c4t2`, not the last successfully processed one). -/
theorem c4_counterexample :
    (orchRun c4s0 c4trace).lastOk = some c4t1 ∧
    (orchStep (orchRun c4s0 c4trace) (.check c4t1)).st.capturedText = some c4t1 ∧
    (orchStep (orchRun c4s0 c4trace) (.check c4t1)).st ≠ (orchRun c4s0 c4trace).st := by
  refine ⟨by decide, by decide, by decide⟩

/-- Claim C4, amended: the dedup guard compares against the most recently
detected candidate (`lastProcessedContent`, set when a candidate is
accepted, whether or not it is later processed): a candidate equal to it
leaves the state unchanged.  Consequently, submitting the same qualifying
clipboard text twice in a row triggers a capture exactly once — the second
check is a no-op both while the modal is open and after it closes. -/
theorem c4_amended :
    (∀ s : OrchState, ∀ t : String, t = s.lastProcessedContent →
      handleClipboardCheck s t = s) ∧
    (∀ s : OrchState, ∀ t : String,
      s.isFolderSelected = true → s.capturedText = none → t ≠ "" →
      ¬ t.length < 1000 → looksLikeAcordao t = true → t ≠ s.lastProcessedContent →
      (handleClipboardCheck s t).capturedText = some t ∧
      handleClipboardCheck (handleClipboardCheck s t) t = handleClipboardCheck s t ∧
      handleClipboardCheck { handleClipboardCheck s t with capturedText := none } t =
        { handleClipboardCheck s t with capturedText := none }) := by
  constructor
  · intro s t h
    by_cases h1 : s.isFolderSelected = false ∨ s.capturedText.isSome
    · simp [handleClipboardCheck, h1]
    · rw [handleClipboardCheck, if_neg h1, if_pos (Or.inr (Or.inl h))]
  · intro s t hf hc hne hlen hlook hlast
    have h1 : ¬ (s.isFolderSelected = false ∨ s.capturedText.isSome) := by
      simp [hf, hc]
    have h2 : ¬ (t = "" ∨ t = s.lastProcessedContent ∨ t.length < 1000) := by
      simp [hne, hlast, hlen]
    have hstep : handleClipboardCheck s t =
        { s with lastProcessedContent := t, capturedText := some t } := by
      rw [handleClipboardCheck, if_neg h1, if_neg h2, if_pos hlook]
    refine ⟨by rw [hstep], ?_, ?_⟩
    · rw [hstep]
      simp [handleClipboardCheck]
    · rw [hstep]
      rw [handleClipboardCheck]
      simp

/-- Witness for `c4_amended` at the concrete state and candidate. -/
theorem c4_amended_witness :
    (handleClipboardCheck ⟨true, none, ""⟩ c4t1).capturedText = some c4t1 ∧
    handleClipboardCheck (handleClipboardCheck ⟨true, none, ""⟩ c4t1) c4t1 =
      handleClipboardCheck ⟨true, none, ""⟩ c4t1 ∧
    handleClipboardCheck
        { handleClipboardCheck ⟨true, none, ""⟩ c4t1 with capturedText := none } c4t1 =
      { handleClipboardCheck ⟨true, none, ""⟩ c4t1 with capturedText := none } := by
  exact c4_amended.2 ⟨true, none, ""⟩ c4t1 rfl rfl (by decide) (by decide)
    (by decide) (by decide)

/-! ## Ingestion orchestrator: capture persistence (claim C9)

`Store` joins the two backends behind the single `StorageService` surface
used by the orchestrator; each operation dispatches on the active mode
exactly as the `isFallbackMode` branches do. -/

structure Store where
  mode : Mode
  nst : NativeStore := {}
  vst : VirtualStore := {}
  deriving DecidableEq, Repr

def Store.saveRawTxt (s : Store) (name content : String) : Store :=
  match s.mode with
  | .virtual => { s with vst := s.vst.saveRawTxt name content }
  | .native => { s with nst := s.nst.saveRawTxt name content }

def Store.deleteRawFile (s : Store) (name : String) : Store :=
  match s.mode with
  | .virtual => { s with vst := s.vst.deleteRawFile name }
  | .native => { s with nst := s.nst.deleteRawFile name }

def Store.saveProcessedAcordao (s : Store) (a : Acordao) : Store :=
  match s.mode with
  | .virtual => { s with vst := s.vst.saveProcessedAcordao a }
  | .native => { s with nst := s.nst.saveProcessedAcordao a }

def Store.rawLookup (s : Store) (name : String) : Option String :=
  match s.mode with
  | .virtual => lookupKey name s.vst.rawFiles
  | .native => lookupKey name s.nst.txtFiles

def Store.procEntries (s : Store) : List Acordao :=
  match s.mode with
  | .virtual => s.vst.acordaos.map Prod.snd
  | .native => s.nst.jsonFiles.map Prod.snd

/-- The `confirmCapture` handler of `src/unnamed/part_002` lines 94-118:
save the raw capture under `captura_<timestamp>` first, then parse; on a
successful parse, save the processed record (id defaulted to
`ID_<timestamp>`) and delete the raw entry; otherwise leave the raw entry in
place.  `parse` abstracts `fun t => parseCsmHtml t browserUrl`. -/
def confirmCaptureP2 (parse : String → ExtractionResult) (s : Store)
    (capturedText : Option String) (now : Nat) : Store :=
  match capturedText with
  | none => s
  | some text =>
    let fileName := "captura_" ++ toString now
    let s1 := s.saveRawTxt fileName text
    let result := parse text
    match result.success, result.data with
    | true, some d =>
      let s2 := s1.saveProcessedAcordao { d with id := jsOrS d.id ("ID_" ++ toString now) }
      s2.deleteRawFile fileName
    | _, _ => s1

/-- The `handleConfirmCapture` handler of `src/App.tsx` lines 58-89: parse
first; on success save the raw text under the record's file name and then
the processed record (the raw entry is never deleted); on failure an error
is thrown and caught, leaving storage untouched. -/
def handleConfirmCaptureV1 (parse : String → ExtractionResult) (s : Store)
    (capturedText : Option String) (now : Nat) : Store :=
  match capturedText with
  | none => s
  | some text =>
    let result := parse text
    match result.success, result.data with
    | true, some d =>
      let fn := jsOrS (String.mk (d.processo.data.map (fun c => if c = '/' then '_' else c)))
                  ("captura_" ++ toString now)
      let a := { d with id := jsOrS d.id ("proc_" ++ toString now), fileName := some fn }
      let s1 := s.saveRawTxt fn text
      s1.saveProcessedAcordao a
    | _, _ => s

theorem mem_map_snd_upsert (k : String) (v : α) (l : List (String × α)) :
    v ∈ (upsert k v l).map Prod.snd := by
  induction l with
  | nil => simp [upsert]
  | cons hd tl ih =>
    obtain ⟨k', v'⟩ := hd
    by_cases h : k' = k
    · simp [upsert, h]
    · simp only [upsert, if_neg h, List.map_cons, List.mem_cons]
      exact Or.inr ih

theorem Store.rawLookup_saveProcessedAcordao (s : Store) (a : Acordao) (n : String) :
    (s.saveProcessedAcordao a).rawLookup n = s.rawLookup n := by
  obtain ⟨mode, nst, vst⟩ := s
  cases mode <;> rfl

def c9parseFail : String → ExtractionResult := fun _ => ⟨false, none, some "err"⟩

def c9rec : Acordao :=
  { id := "I", ecli := "E", relator := "", descritores := [], processo := "p",
    data := "", sumario := "", textoIntegral := "", adjuntos := [], url := "" }

def c9parseOk : String → ExtractionResult := fun _ => ⟨true, some c9rec, none⟩

def c9s0 : Store := ⟨.virtual, {}, {}⟩

/-- Claim C9 is false for the `App.tsx` orchestrator: on the capture event
with text `"Relator: X"` and a failing extraction, `handleConfirmCapture`
persists nothing at all — there is no surviving RawCapture to retry (it was
never saved, extraction having run first) and no LegalRecord, so neither
disjunct of the claimed invariant holds; and on a successful extraction the
raw entry is saved but never deleted. -/
theorem c9_counterexample :
    (handleConfirmCaptureV1 c9parseFail c9s0 (some "Relator: X") 0).vst.rawFiles = [] ∧
    (handleConfirmCaptureV1 c9parseFail c9s0 (some "Relator: X") 0).vst.acordaos = [] ∧
    (handleConfirmCaptureV1 c9parseOk c9s0 (some "Relator: X") 0).rawLookup "p" =
      some "Relator: X" := by
  refine ⟨rfl, rfl, rfl⟩

/-- Claim C9, amended: the `part_002` orchestrator (`confirmCapture`) does
satisfy the claimed lifecycle for a fresh capture name: the raw capture is
saved first; on a successful extraction the processed record is stored and
the raw entry for this capture is deleted; on a failed extraction the raw
entry survives with the captured text. -/
theorem c9_amended (parse : String → ExtractionResult) (s : Store) (text : String)
    (now : Nat) (hfresh : s.rawLookup ("captura_" ++ toString now) = none) :
    (∀ d, (parse text).success = true → (parse text).data = some d →
      (confirmCaptureP2 parse s (some text) now).rawLookup
          ("captura_" ++ toString now) = none ∧
      { d with id := jsOrS d.id ("ID_" ++ toString now) } ∈
        (confirmCaptureP2 parse s (some text) now).procEntries) ∧
    ((parse text).success = false ∨ (parse text).data = none →
      (confirmCaptureP2 parse s (some text) now).rawLookup
          ("captura_" ++ toString now) = some text) := by
  constructor
  · intro d hs hd
    simp only [confirmCaptureP2, hs, hd]
    obtain ⟨mode, nst, vst⟩ := s
    cases mode with
    | native =>
      refine ⟨?_, ?_⟩
      · simp only [Store.saveRawTxt, Store.saveProcessedAcordao, Store.deleteRawFile,
          Store.rawLookup, NativeStore.saveRawTxt, NativeStore.saveProcessedAcordao,
          NativeStore.deleteRawFile]
        exact lookupKey_eraseKey_upsert_fresh _ _ _ hfresh
      · simp only [Store.saveRawTxt, Store.saveProcessedAcordao, Store.deleteRawFile,
          Store.procEntries, NativeStore.saveRawTxt, NativeStore.saveProcessedAcordao,
          NativeStore.deleteRawFile]
        exact mem_map_snd_upsert _ _ _
    | virtual =>
      refine ⟨?_, ?_⟩
      · simp only [Store.saveRawTxt, Store.saveProcessedAcordao, Store.deleteRawFile,
          Store.rawLookup, VirtualStore.saveRawTxt, VirtualStore.saveProcessedAcordao,
          VirtualStore.deleteRawFile]
        exact lookupKey_eraseKey_upsert_fresh _ _ _ hfresh
      · simp only [Store.saveRawTxt, Store.saveProcessedAcordao, Store.deleteRawFile,
          Store.procEntries, VirtualStore.saveRawTxt, VirtualStore.saveProcessedAcordao,
          VirtualStore.deleteRawFile]
        exact mem_map_snd_upsert _ _ _
  · intro hf
    have hred : confirmCaptureP2 parse s (some text) now =
        s.saveRawTxt ("captura_" ++ toString now) text := by
      rcases hf with hf | hf
      · simp only [confirmCaptureP2, hf]
      · simp only [confirmCaptureP2, hf]
        cases (parse text).success <;> rfl
    rw [hred]
    obtain ⟨mode, nst, vst⟩ := s
    cases mode with
    | native =>
      simp only [Store.saveRawTxt, Store.rawLookup, NativeStore.saveRawTxt]
      exact lookupKey_upsert_self _ _ _
    | virtual =>
      simp only [Store.saveRawTxt, Store.rawLookup, VirtualStore.saveRawTxt]
      exact lookupKey_upsert_self _ _ _

/-- Witness for `c9_amended` under the virtual backend with both a
successful and a failing extraction at the empty store. -/
theorem c9_amended_witness :
    (confirmCaptureP2 c9parseOk c9s0 (some "T") 0).rawLookup "captura_0" = none ∧
    { c9rec with id := jsOrS c9rec.id "ID_0" } ∈
      (confirmCaptureP2 c9parseOk c9s0 (some "T") 0).procEntries ∧
    (confirmCaptureP2 c9parseFail c9s0 (some "T") 0).rawLookup "captura_0" =
      some "T" := by
  have h1 := c9_amended c9parseOk c9s0 "T" 0 rfl
  have h2 := c9_amended c9parseFail c9s0 "T" 0 rfl
  exact ⟨(h1.1 c9rec rfl rfl).1, (h1.1 c9rec rfl rfl).2, h2.2 (Or.inl rfl)⟩

/-! ## Character patterns for the labeled-field regular expressions

The plain-text branch of `parseCsmHtml` (`src/services/parserService.ts`
lines 270-296 of the current version) uses case-insensitive regular
expressions of the shape `(?:L1|L2):\s*([^\n]+)` plus two ECLI patterns, a
lazy summary pattern and a full-text pattern.  `LC` is a single-character
matcher (a case-insensitive literal, or a character class), a label is a
`List LC`, and the matchers below reproduce the leftmost-match and
backtracking behaviour of the JavaScript engine on these shapes. -/

inductive LC where
  | ci (c : Char)
  | anyOf (cs : List Char)
  deriving DecidableEq, Repr

def LC.hits : LC → Char → Bool
  | .ci a, c => lowerC c = a
  | .anyOf cs, c => cs.contains c

def ciStr (s : String) : List LC := s.data.map (fun c => LC.ci (lowerC c))

def lcPref : List LC → List Char → Bool
  | [], _ => true
  | _ :: _, [] => false
  | p :: ps, c :: cs => p.hits c && lcPref ps cs

def lcFind : List LC → List Char → Bool
  | pat, [] => lcPref pat []
  | pat, c :: cs => lcPref pat (c :: cs) || lcFind pat cs

/-- The tail `\s*([^\n]+)` of a labeled-field pattern, applied to the text
following the label, with JavaScript backtracking: the greedy `\s*` yields
characters from the right until `[^\n]+` can start (a position holding a
non-newline character); the group then takes the maximal non-newline run. -/
def wsCapture (rest : List Char) : Option (List Char) :=
  let w := rest.takeWhile isJsWs
  match rest.drop w.length with
  | c :: cs => some ((c :: cs).takeWhile (fun x => x != '\n'))
  | [] =>
    match w.reverse.dropWhile (fun x => x == '\n') with
    | [] => none
    | c :: _ => some [c]

def firstSome (f : α → Option β) : List α → Option β
  | [] => none
  | a :: as =>
    match f a with
    | some v => some v
    | none => firstSome f as

/-- Leftmost match of `(?:L1|...|Ln):\s*([^\n]+)`-shaped patterns: at each
position the alternatives are tried in order; on a label match whose
capture tail fails, the next alternative and then the next position are
tried, as the JavaScript engine does. -/
def matchLab (labels : List (List LC)) : List Char → Option (List Char)
  | [] => none
  | c :: cs =>
    match firstSome
        (fun lab => if lcPref lab (c :: cs) then wsCapture ((c :: cs).drop lab.length)
                    else none) labels with
    | some cap => some cap
    | none => matchLab labels cs

/-- The `extract` helper of the plain-text branch composed with the
JavaScript `|| fallback`: a null match or an empty trimmed capture falls
back. -/
def extractLab (labels : List (List LC)) (text : List Char) (fb : String) : String :=
  jsOrO ((matchLab labels text).map (fun cap => String.mk (jsTrim cap))) fb

def asciiLetter (c : Char) : Bool := ('A' ≤ c && c ≤ 'Z') || ('a' ≤ c && c ≤ 'z')

/-- Match of `(ECLI:PT:[A-Z]+:[0-9]+:[^ \n]+)` (flag `i`) at the head of
`s`, returning the matched text.  The runs `[A-Z]+` and `[0-9]+` are
deterministic under backtracking because the character after a maximal run
can only fail the following `:` literal. -/
def ecliCore (s : List Char) : Option (List Char) :=
  if lcPref (ciStr "ecli:pt:") s then
    let r0 := s.drop 8
    let letters := r0.takeWhile asciiLetter
    if letters.isEmpty then none else
    match r0.drop letters.length with
    | ':' :: r2 =>
      let digits := r2.takeWhile Char.isDigit
      if digits.isEmpty then none else
      match r2.drop digits.length with
      | ':' :: r3 =>
        let tl := r3.takeWhile (fun c => c != ' ' && c != '\n')
        if tl.isEmpty then none
        else some (s.take 8 ++ letters ++ [':'] ++ digits ++ [':'] ++ tl)
      | _ => none
    | _ => none
  else none

/-- Match of `ECLI:\s*(ECLI:PT:[A-Z]+:[0-9]+:[^ \n]+)` (flag `i`) at the
head of `s`: the capture group starts with a letter, so `\s*` must consume
exactly the maximal whitespace run. -/
def ecli1At (s : List Char) : Option (List Char) :=
  if lcPref (ciStr "ecli:") s then ecliCore ((s.drop 5).dropWhile isJsWs) else none

/-- Leftmost-position scan used to model `text.match(...)`. -/
def scanO (f : List Char → Option (List Char)) : List Char → Option (List Char)
  | [] => f []
  | c :: cs =>
    match f (c :: cs) with
    | some v => some v
    | none => scanO f cs

def tiLab : List LC := ciStr "texto integral:"

def dtiLab : List LC := ciStr "decisão texto integral:"

def lookTI (s : List Char) : Bool := lcPref tiLab s || lcPref dtiLab s

def takeUntilTI : List Char → List Char
  | [] => []
  | c :: cs => if lookTI (c :: cs) then [] else c :: takeUntilTI cs

/-- Match of `Sumário:\s*([\s\S]*?)(?=Texto Integral:|Decisão Texto
Integral:|$)` (flag `i`) at the head of `s`: after the greedy `\s*`, the
lazy group extends to the earliest lookahead position (or the end of
input, where `$` holds). -/
def sumarioAt (s : List Char) : Option (List Char) :=
  if lcPref (ciStr "sumário:") s then
    some (takeUntilTI ((s.drop (ciStr "sumário:").length).dropWhile isJsWs))
  else none

/-- Match of `(?:Texto Integral:|Decisão Texto Integral:)\s*([\s\S]*)`
(flag `i`) at the head of `s`. -/
def tiAt (s : List Char) : Option (List Char) :=
  if lcPref tiLab s then some ((s.drop tiLab.length).dropWhile isJsWs)
  else if lcPref dtiLab s then some ((s.drop dtiLab.length).dropWhile isJsWs)
  else none

/-! ## Splitting, descriptor lists and co-signer extraction -/

def splitOnP (p : Char → Bool) : List Char → List (List Char)
  | [] => [[]]
  | c :: cs =>
    if p c then [] :: splitOnP p cs
    else
      match splitOnP p cs with
      | h :: t => (c :: h) :: t
      | [] => [[c]]

/-- JavaScript `content.replace(/\r\n/g, '\n')`. -/
def normCRLF : List Char → List Char
  | [] => []
  | '\r' :: '\n' :: cs => '\n' :: normCRLF cs
  | c :: cs => c :: normCRLF cs

/-- `descRaw.split(/[,;]/).map(d => d.trim()).filter(Boolean)`. -/
def descritoresOf (descRaw : List Char) : List String :=
  ((splitOnP (fun c => c == ',' || c == ';') descRaw).map
    (fun l => String.mk (jsTrim l))).filter (fun s => s != "")

/-- `line.replace(/^[0-9.\s-]+/, '')`. -/
def stripLeadNum (l : List Char) : List Char :=
  l.dropWhile (fun c => c.isDigit || c == '.' || isJsWs c || c == '-')

/-- Index of the last line containing the needle (case already lowered on
both sides by the caller for the needle; the line is lowered here), as the
backward `for` loop of the source computes it. -/
def lastIdxCont : List (List Char) → List Char → Option Nat
  | [], _ => none
  | l :: ls, nd =>
    match lastIdxCont ls nd with
    | some i => some (i + 1)
    | none => if containsSub nd (lowerL l) then some 0 else none

/-- Co-signer extraction of `parserService.ts` lines 300-312: split into
trimmed lines longer than 2 characters, find the last line containing the
relator name case-insensitively, take the five following lines, drop lines
of length 100 or more or containing `nota`, strip leading numbering. -/
def adjuntosOf (relator : String) (source : List Char) : List String :=
  let lines := ((splitOnP (fun c => c == '\n') source).map jsTrim).filter
    (fun l => decide (2 < l.length))
  match lastIdxCont lines (lowerL relator.data) with
  | none => []
  | some i =>
    (((lines.drop (i + 1)).take 5).filter
        (fun l => decide (l.length < 100) && !(containsSub "nota".data (lowerL l)))).map
      (fun l => String.mk (jsTrim (stripLeadNum l)))

/-! ## The field extractor, current version

`parseCsmHtmlV3` transcribes `parseCsmHtml` of
`src/services/parserService.ts` lines 239-339 (the version supporting both
markup and plain text).  DOM querying is abstracted by a `Dom` record
holding the text content of the first element matched by each selector
group, when any (design note of the specification: "query a structured
document tree for the first node matching a ranked list of structural
descriptors"); `now` stands for `Date.now()`. -/

structure Dom where
  qEcli : Option String := none
  qEcliScan : Option String := none
  qProcesso : Option String := none
  qData : Option String := none
  qRelator : Option String := none
  qDescritores : Option String := none
  qSumario : Option String := none
  qTextoIntegral : Option String := none
  bodyText : Option String := none
  deriving DecidableEq, Repr

def domNone : Dom := {}

def isHtmlContent (content : String) : Bool :=
  containsSub "<div".data content.data || containsSub "<span".data content.data ||
  containsSub "<p".data content.data

def procLab2 : List LC := ciStr "n." ++ [LC.anyOf ['º']] ++ ciStr " do processo:"

def ecliPlain (text : List Char) : String :=
  jsOrO ((scanO ecli1At text).map (fun cap => String.mk (jsTrim cap)))
    (jsOrO ((scanO ecliCore text).map (fun cap => String.mk (jsTrim cap))) "Desconhecido")

def processoPlain (text : List Char) : String :=
  extractLab [ciStr "processo:", procLab2] text "Desconhecido"

def dataPlain (text : List Char) : String :=
  extractLab [ciStr "data do acórdão:", ciStr "data:"] text "Desconhecida"

def relatorPlain (text : List Char) : String :=
  extractLab [ciStr "relator:"] text "Desconhecido"

def descRawPlain (text : List Char) : String :=
  extractLab [ciStr "descritores:"] text ""

def sumarioPlain (text : List Char) : String :=
  match scanO sumarioAt text with
  | some cap => String.mk (jsTrim cap)
  | none => ""

def textoIntegralPlain (text : List Char) : List Char :=
  match scanO tiAt text with
  | some cap => jsTrim cap
  | none => text

/-- `urlParts[urlParts.length - 1]` of the locator, decoded when it starts
with `ECLI` (underscores become colons) — lines 315-320 of the source. -/
def urlEcliFallback (url : String) : Option String :=
  if url = "" then none
  else
    match (splitOnP (fun c => c == '/') url.data).getLast? with
    | none => none
    | some last =>
      if prefOf "ECLI".data last then
        some (String.mk (last.map (fun c => if c = '_' then ':' else c)))
      else none

def parseCsmHtmlV3 (dom : Dom) (content url : String) (now : Nat) : ExtractionResult :=
  let text := normCRLF content.data
  let isH := isHtmlContent content
  let ecli0 :=
    if isH then jsOrO (dom.qEcli.map strTrim) (jsOrO (dom.qEcliScan.map strTrim) "Desconhecido")
    else ecliPlain text
  let processo :=
    if isH then jsOrO (dom.qProcesso.map strTrim) "Desconhecido" else processoPlain text
  let data :=
    if isH then jsOrO (dom.qData.map strTrim) "Desconhecida" else dataPlain text
  let relator :=
    if isH then jsOrO (dom.qRelator.map strTrim) "Desconhecido" else relatorPlain text
  let descritores :=
    if isH then descritoresOf (dom.qDescritores.getD "").data
    else descritoresOf (descRawPlain text).data
  let sumario :=
    if isH then jsOrO (dom.qSumario.map strTrim) "" else sumarioPlain text
  let textoIntegral : List Char :=
    if isH then (jsOrO (dom.qTextoIntegral.map strTrim) (jsOrO (dom.bodyText.map strTrim) "")).data
    else textoIntegralPlain text
  let adjuntos :=
    if relator ≠ "Desconhecido" then
      adjuntosOf relator (if textoIntegral.isEmpty then content.data else textoIntegral)
    else []
  let ecli := if ecli0 = "Desconhecido" then (urlEcliFallback url).getD ecli0 else ecli0
  let id := if ecli ≠ "Desconhecido" then ecli else "proc_" ++ processo ++ "_" ++ toString now
  { success := true,
    data := some { id := id, ecli := ecli, relator := relator, descritores := descritores,
                   processo := processo, data := data, sumario := sumario,
                   textoIntegral := String.mk textoIntegral, adjuntos := adjuntos,
                   url := url, fileName := none },
    error := none }

/-! ## No-match lemmas

For claim C1 the relevant fact is that a text containing no labeled field
makes every matcher of the plain-text branch return `none`. -/

theorem lcFind_cons (pat : List LC) (c : Char) (cs : List Char)
    (h : lcFind pat (c :: cs) = false) :
    lcPref pat (c :: cs) = false ∧ lcFind pat cs = false := by
  rw [lcFind] at h
  exact Bool.or_eq_false_iff.mp h

theorem firstSome_none (f : α → Option β) (l : List α)
    (h : ∀ a ∈ l, f a = none) : firstSome f l = none := by
  induction l with
  | nil => rfl
  | cons a as ih =>
    rw [firstSome, h a (by simp)]
    exact ih (fun x hx => h x (by simp [hx]))

theorem matchLab_none (labels : List (List LC)) (s : List Char)
    (h : ∀ lab ∈ labels, lcFind lab s = false) : matchLab labels s = none := by
  induction s with
  | nil => rfl
  | cons c cs ih =>
    rw [matchLab, firstSome_none _ _
      (fun lab hl => by simp [(lcFind_cons lab c cs (h lab hl)).1])]
    exact ih (fun lab hl => (lcFind_cons lab c cs (h lab hl)).2)

theorem scanO_ecli1At_none (s : List Char) (h : lcFind (ciStr "ecli:") s = false) :
    scanO ecli1At s = none := by
  induction s with
  | nil => rfl
  | cons c cs ih =>
    obtain ⟨h1, h2⟩ := lcFind_cons _ c cs h
    rw [scanO, show ecli1At (c :: cs) = none from by simp [ecli1At, h1]]
    exact ih h2

theorem scanO_ecliCore_none (s : List Char) (h : lcFind (ciStr "ecli:pt:") s = false) :
    scanO ecliCore s = none := by
  induction s with
  | nil => rfl
  | cons c cs ih =>
    obtain ⟨h1, h2⟩ := lcFind_cons _ c cs h
    rw [scanO, show ecliCore (c :: cs) = none from by simp [ecliCore, h1]]
    exact ih h2

theorem scanO_sumarioAt_none (s : List Char) (h : lcFind (ciStr "sumário:") s = false) :
    scanO sumarioAt s = none := by
  induction s with
  | nil => rfl
  | cons c cs ih =>
    obtain ⟨h1, h2⟩ := lcFind_cons _ c cs h
    rw [scanO, show sumarioAt (c :: cs) = none from by simp [sumarioAt, h1]]
    exact ih h2

theorem scanO_tiAt_none (s : List Char) (h1 : lcFind tiLab s = false)
    (h2 : lcFind dtiLab s = false) : scanO tiAt s = none := by
  induction s with
  | nil => rfl
  | cons c cs ih =>
    obtain ⟨h1a, h1b⟩ := lcFind_cons _ c cs h1
    obtain ⟨h2a, h2b⟩ := lcFind_cons _ c cs h2
    rw [scanO, show tiAt (c :: cs) = none from by simp [tiAt, h1a, h2a]]
    exact ih h1b h2b

/-! ## Claim C1 — extraction from unstructured input -/

def labelsAll : List (List LC) :=
  [ciStr "ecli:", ciStr "ecli:pt:", ciStr "processo:", procLab2,
   ciStr "data do acórdão:", ciStr "data:", ciStr "relator:",
   ciStr "descritores:", ciStr "sumário:", tiLab, dtiLab]

/-- An input with no recognizable structure: no markup token (`<div`,
`<span`, `<p`) and no occurrence of any labeled-field pattern in the
normalized text. -/
def Unstructured (content : String) : Prop :=
  isHtmlContent content = false ∧
  ∀ lab ∈ labelsAll, lcFind lab (normCRLF content.data) = false

instance (content : String) : Decidable (Unstructured content) := by
  unfold Unstructured
  infer_instance

def SentinelOrEmpty (s : String) : Prop := s = "Desconhecido" ∨ s = "Desconhecida" ∨ s = ""

instance (s : String) : Decidable (SentinelOrEmpty s) := by
  unfold SentinelOrEmpty
  infer_instance

/-- The property claim C1 asserts of the resulting record: every field is
the unknown sentinel or an empty string/sequence. -/
def AllFieldsSentinel (a : Acordao) : Prop :=
  SentinelOrEmpty a.id ∧ SentinelOrEmpty a.ecli ∧ SentinelOrEmpty a.processo ∧
  SentinelOrEmpty a.data ∧ SentinelOrEmpty a.relator ∧ a.descritores = [] ∧
  SentinelOrEmpty a.sumario ∧ SentinelOrEmpty a.textoIntegral ∧ a.adjuntos = [] ∧
  SentinelOrEmpty a.url

instance (a : Acordao) : Decidable (AllFieldsSentinel a) := by
  unfold AllFieldsSentinel
  infer_instance

/-- Claim C1 is false as stated: the unstructured input `"xyz"` yields a
success result, but the record does not have every field sentinel or empty —
`textoIntegral` retains the whole raw input and `id` is the synthetic
`proc_Desconhecido_<timestamp>`. -/
theorem c1_counterexample :
    Unstructured "xyz" ∧
    (parseCsmHtmlV3 domNone "xyz" "" 0).success = true ∧
    ((parseCsmHtmlV3 domNone "xyz" "" 0).data.map
      (fun a => decide (AllFieldsSentinel a))) = some false ∧
    ((parseCsmHtmlV3 domNone "xyz" "" 0).data.map (fun a => a.textoIntegral)) =
      some "xyz" := by
  refine ⟨by decide, by decide, by decide, by decide⟩

/-- Claim C1, amended: on any unstructured input (and a locator that does
not itself encode an ECLI), extraction still succeeds without throwing, and
every structured field is the unknown sentinel or empty — but
`textoIntegral` retains the whole (CRLF-normalized) input, `id` is the
synthetic `proc_Desconhecido_<timestamp>`, and `url` echoes the locator. -/
theorem c1_amended (dom : Dom) (content url : String) (now : Nat)
    (hu : Unstructured content) (hurl : urlEcliFallback url = none) :
    parseCsmHtmlV3 dom content url now =
      ⟨true, some { id := "proc_Desconhecido_" ++ toString now, ecli := "Desconhecido",
                    relator := "Desconhecido", descritores := [],
                    processo := "Desconhecido", data := "Desconhecida", sumario := "",
                    textoIntegral := String.mk (normCRLF content.data), adjuntos := [],
                    url := url, fileName := none }, none⟩ := by
  obtain ⟨hhtml, hlabs⟩ := hu
  have hecli : ecliPlain (normCRLF content.data) = "Desconhecido" := by
    rw [ecliPlain, scanO_ecli1At_none _ (hlabs _ (by simp [labelsAll])),
        scanO_ecliCore_none _ (hlabs _ (by simp [labelsAll]))]
    rfl
  have hproc : processoPlain (normCRLF content.data) = "Desconhecido" := by
    have h : ∀ lab ∈ [ciStr "processo:", procLab2],
        lcFind lab (normCRLF content.data) = false := by
      intro lab hl
      simp only [List.mem_cons, List.not_mem_nil, or_false] at hl
      rcases hl with h | h
      · exact h ▸ hlabs _ (by simp [labelsAll])
      · exact h ▸ hlabs _ (by simp [labelsAll])
    rw [processoPlain, extractLab, matchLab_none _ _ h]
    rfl
  have hdata : dataPlain (normCRLF content.data) = "Desconhecida" := by
    have h : ∀ lab ∈ [ciStr "data do acórdão:", ciStr "data:"],
        lcFind lab (normCRLF content.data) = false := by
      intro lab hl
      simp only [List.mem_cons, List.not_mem_nil, or_false] at hl
      rcases hl with h | h
      · exact h ▸ hlabs _ (by simp [labelsAll])
      · exact h ▸ hlabs _ (by simp [labelsAll])
    rw [dataPlain, extractLab, matchLab_none _ _ h]
    rfl
  have hrel : relatorPlain (normCRLF content.data) = "Desconhecido" := by
    have h : ∀ lab ∈ [ciStr "relator:"],
        lcFind lab (normCRLF content.data) = false := by
      intro lab hl
      simp only [List.mem_cons, List.not_mem_nil, or_false] at hl
      exact hl ▸ hlabs _ (by simp [labelsAll])
    rw [relatorPlain, extractLab, matchLab_none _ _ h]
    rfl
  have hdesc : descRawPlain (normCRLF content.data) = "" := by
    have h : ∀ lab ∈ [ciStr "descritores:"],
        lcFind lab (normCRLF content.data) = false := by
      intro lab hl
      simp only [List.mem_cons, List.not_mem_nil, or_false] at hl
      exact hl ▸ hlabs _ (by simp [labelsAll])
    rw [descRawPlain, extractLab, matchLab_none _ _ h]
    rfl
  have hsum : sumarioPlain (normCRLF content.data) = "" := by
    rw [sumarioPlain, scanO_sumarioAt_none _ (hlabs _ (by simp [labelsAll]))]
  have hti : textoIntegralPlain (normCRLF content.data) = normCRLF content.data := by
    rw [textoIntegralPlain, scanO_tiAt_none _ (hlabs _ (by simp [labelsAll]))
      (hlabs _ (by simp [labelsAll]))]
  have hdnil : descritoresOf ("" : String).data = [] := by decide
  simp only [parseCsmHtmlV3, hhtml, Bool.false_eq_true, if_false,
    hecli, hproc, hdata, hrel, hdesc, hsum, hti, hurl, hdnil]
  simp

/-- Witness for `c1_amended` at the unstructured input `"xyz"` with an
empty locator. -/
theorem c1_amended_witness :
    parseCsmHtmlV3 domNone "xyz" "" 0 =
      ⟨true, some { id := "proc_Desconhecido_" ++ toString 0, ecli := "Desconhecido",
                    relator := "Desconhecido", descritores := [],
                    processo := "Desconhecido", data := "Desconhecida", sumario := "",
                    textoIntegral := String.mk (normCRLF "xyz".data), adjuntos := [],
                    url := "", fileName := none }, none⟩ := by
  exact c1_amended domNone "xyz" "" 0 (by decide) (by decide)

/-! ## Claim C6 — relator and co-signer scenario -/

def c6Input : String :=
  "Relator: João Silva\n" ++
  "Linha de contexto um.\n" ++
  "Linha de contexto dois.\n" ++
  "Linha de contexto tres.\n" ++
  "Linha de contexto quatro.\n" ++
  "Linha de contexto cinco.\n" ++
  "Linha de contexto seis.\n" ++
  "Linha de contexto sete.\n" ++
  "Linha de contexto oito.\n" ++
  "João Silva\n" ++
  "Ana Costa\n" ++
  "Nota: —\n"

/-- Claim C6: on the plain-text scenario input — `"Relator: João Silva"`,
nine lines later the line `"João Silva"` followed by `"Ana Costa"` and
`"Nota: —"` — extraction resolves `relator = "João Silva"` and
`adjuntos = ["Ana Costa"]`, the noise-marked line being excluded by the
window filter. -/
theorem c6_scenario :
    ((parseCsmHtmlV3 domNone c6Input "" 0).data.map
      (fun a => (a.relator, a.adjuntos))) = some ("João Silva", ["Ana Costa"]) := by
  decide

/-! ## Claim C7 — ECLI recovered from the locator -/

/-- Claim C7: on a markup input where no structural selector matches, with
a locator whose last path segment is `ECLI_PT_STJ_2022_167_15`, extraction
still succeeds with `ecli = "ECLI:PT:STJ:2022:167:15"` (underscores decoded
to colons) and every other structured field at its sentinel. -/
theorem c7_url_fallback (content url : String) (now : Nat)
    (hh : isHtmlContent content = true) (hne : url ≠ "")
    (hl : (splitOnP (fun c => c == '/') url.data).getLast? =
      some "ECLI_PT_STJ_2022_167_15".data) :
    parseCsmHtmlV3 domNone content url now =
      ⟨true, some { id := "ECLI:PT:STJ:2022:167:15", ecli := "ECLI:PT:STJ:2022:167:15",
                    relator := "Desconhecido", descritores := [],
                    processo := "Desconhecido", data := "Desconhecida", sumario := "",
                    textoIntegral := "", adjuntos := [], url := url, fileName := none },
       none⟩ := by
  have hfb : urlEcliFallback url = some "ECLI:PT:STJ:2022:167:15" := by
    rw [urlEcliFallback, if_neg hne, hl]
    decide
  simp only [parseCsmHtmlV3, hh, if_true, hfb]
  simp [domNone, jsOrO, jsOrS, strTrim, descritoresOf, splitOnP, jsTrim]

/-- Witness for `c7_url_fallback` at a concrete markup input and locator. -/
theorem c7_url_fallback_witness :
    parseCsmHtmlV3 domNone "<p>conteudo</p>"
        "https://jurisprudencia.csm.org.pt/ecli/ECLI_PT_STJ_2022_167_15" 0 =
      ⟨true, some { id := "ECLI:PT:STJ:2022:167:15", ecli := "ECLI:PT:STJ:2022:167:15",
                    relator := "Desconhecido", descritores := [],
                    processo := "Desconhecido", data := "Desconhecida", sumario := "",
                    textoIntegral := "", adjuntos := [],
                    url := "https://jurisprudencia.csm.org.pt/ecli/ECLI_PT_STJ_2022_167_15",
                    fileName := none }, none⟩ := by
  exact c7_url_fallback _ _ 0 (by decide) (by decide) (by decide)

/-! ## Section-header patterns (claim C5)

The `fundamentacao` block of the richer `parseCsmHtml` variant
(`src/services/parserService.ts` lines 36-81) matches the full text against
an ordered list of case-insensitive section-header regular expressions.
They are embedded as a small regular-expression datatype with Brzozowski
derivatives; `reFirstIdx` computes the index of the leftmost match, which
is all `match.index` uses of the source need. -/

inductive CC5 where
  | lit (c : Char)
  | litCi (c : Char)
  | ws
  | wsOrDot
  | commaDot
  deriving DecidableEq, Repr

def CC5.hits : CC5 → Char → Bool
  | .lit a, c => c = a
  | .litCi a, c => lowerC c = a
  | .ws, c => isJsWs c
  | .wsOrDot, c => c = '.' || isJsWs c
  | .commaDot, c => c = ',' || c = '.'

inductive Re where
  | emp
  | eps
  | cc (k : CC5)
  | alt (a b : Re)
  | cat (a b : Re)
  | star (a : Re)
  deriving DecidableEq, Repr

def Re.nullable : Re → Bool
  | .emp => false
  | .eps => true
  | .cc _ => false
  | .alt a b => a.nullable || b.nullable
  | .cat a b => a.nullable && b.nullable
  | .star _ => true

def altS : Re → Re → Re
  | .emp, r => r
  | r, .emp => r
  | a, b => .alt a b

def catS : Re → Re → Re
  | .emp, _ => .emp
  | _, .emp => .emp
  | .eps, r => r
  | r, .eps => r
  | a, b => .cat a b

def Re.der : Re → Char → Re
  | .emp, _ => .emp
  | .eps, _ => .emp
  | .cc k, c => if k.hits c then .eps else .emp
  | .alt a b, c => altS (a.der c) (b.der c)
  | .cat a b, c => if a.nullable then altS (catS (a.der c) b) (b.der c) else catS (a.der c) b
  | .star a, c => catS (a.der c) (.star a)

/-- Does some prefix of `s` match `r`? -/
def reMatchesPref : Re → List Char → Bool
  | r, [] => r.nullable
  | r, c :: cs =>
    r.nullable ||
      (let r' := r.der c
       if r' = .emp then false else reMatchesPref r' cs)

def reFirstIdxAux (r : Re) : List Char → Nat → Option Nat
  | [], i => if reMatchesPref r [] then some i else none
  | c :: t, i => if reMatchesPref r (c :: t) then some i else reFirstIdxAux r t (i + 1)

/-- `text.match(r).index` for a non-global regular expression: the index of
the leftmost position where a match of `r` starts. -/
def reFirstIdx (r : Re) (s : List Char) : Option Nat := reFirstIdxAux r s 0

def reStr (s : String) : Re :=
  s.data.foldr (fun c acc => Re.cat (Re.cc (CC5.litCi (lowerC c))) acc) Re.eps

def wsStar : Re := Re.star (Re.cc CC5.ws)

def wsPlus : Re := Re.cat (Re.cc CC5.ws) wsStar

def nlRe : Re := Re.cc (CC5.lit '\n')

def reOpt (r : Re) : Re := Re.alt Re.eps r

def dotWsPlus : Re := Re.cat (Re.cc CC5.wsOrDot) (Re.star (Re.cc CC5.wsOrDot))

/-- Pattern `\n\s*(?:II[.\s]+)?(?:Fundamentação|FUNDAMENTAÇÃO)\s+(?:de\s+)?(?:Direito|DIREITO)\s*\n` (flag i). -/
def kwFundDireito : Re :=
  Re.cat nlRe (Re.cat wsStar (Re.cat (reOpt (Re.cat (reStr "II") dotWsPlus))
    (Re.cat (Re.alt (reStr "Fundamentação") (reStr "FUNDAMENTAÇÃO"))
      (Re.cat wsPlus (Re.cat (reOpt (Re.cat (reStr "de") wsPlus))
        (Re.cat (Re.alt (reStr "Direito") (reStr "DIREITO")) (Re.cat wsStar nlRe)))))))

/-- Pattern `\n\s*(?:III[.\s]+)?(?:Apreciação|APRECIAÇÃO)\s*\n` (flag i). -/
def kwApreciacao : Re :=
  Re.cat nlRe (Re.cat wsStar (Re.cat (reOpt (Re.cat (reStr "III") dotWsPlus))
    (Re.cat (Re.alt (reStr "Apreciação") (reStr "APRECIAÇÃO")) (Re.cat wsStar nlRe))))

/-- Pattern `\n\s*(?:O\s+Direito|O\s+DIREITO)\s*\n` (flag i). -/
def kwODireito : Re :=
  Re.cat nlRe (Re.cat wsStar (Re.cat
    (Re.alt (Re.cat (reStr "O") (Re.cat wsPlus (reStr "Direito")))
            (Re.cat (reStr "O") (Re.cat wsPlus (reStr "DIREITO"))))
    (Re.cat wsStar nlRe)))

/-- Pattern `\n\s*(?:Questões\s+a\s+decidir|QUESTÕES\s+A\s+DECIDIR)\s*\n` (flag i). -/
def kwQuestoes : Re :=
  Re.cat nlRe (Re.cat wsStar (Re.cat
    (Re.alt
      (Re.cat (reStr "Questões") (Re.cat wsPlus (Re.cat (reStr "a")
        (Re.cat wsPlus (reStr "decidir")))))
      (Re.cat (reStr "QUESTÕES") (Re.cat wsPlus (Re.cat (reStr "A")
        (Re.cat wsPlus (reStr "DECIDIR"))))))
    (Re.cat wsStar nlRe)))

/-- Pattern `\n\s*(?:Cumpre\s+apreciar|CUMPRE\s+APRECIAR)\s*\n` (flag i). -/
def kwCumpre : Re :=
  Re.cat nlRe (Re.cat wsStar (Re.cat
    (Re.alt (Re.cat (reStr "Cumpre") (Re.cat wsPlus (reStr "apreciar")))
            (Re.cat (reStr "CUMPRE") (Re.cat wsPlus (reStr "APRECIAR"))))
    (Re.cat wsStar nlRe)))

/-- Pattern `\n\s*(?:Fundamentação\s+Jurídica|FUNDAMENTAÇÃO\s+JURÍDICA)\s*\n` (flag i). -/
def kwFundJuridica : Re :=
  Re.cat nlRe (Re.cat wsStar (Re.cat
    (Re.alt (Re.cat (reStr "Fundamentação") (Re.cat wsPlus (reStr "Jurídica")))
            (Re.cat (reStr "FUNDAMENTAÇÃO") (Re.cat wsPlus (reStr "JURÍDICA"))))
    (Re.cat wsStar nlRe)))

/-- Pattern `\n\s*(?:Enquadramento\s+jurídico|ENQUADRAMENTO\s+JURÍDICO)\s*\n` (flag i). -/
def kwEnquadramento : Re :=
  Re.cat nlRe (Re.cat wsStar (Re.cat
    (Re.alt (Re.cat (reStr "Enquadramento") (Re.cat wsPlus (reStr "jurídico")))
            (Re.cat (reStr "ENQUADRAMENTO") (Re.cat wsPlus (reStr "JURÍDICO"))))
    (Re.cat wsStar nlRe)))

/-- Pattern `\n\s*(?:IV[.\s]+)?(?:Decisão|DECISÃO)\s*\n` (flag i). -/
def dkDecisao : Re :=
  Re.cat nlRe (Re.cat wsStar (Re.cat (reOpt (Re.cat (reStr "IV") dotWsPlus))
    (Re.cat (Re.alt (reStr "Decisão") (reStr "DECISÃO")) (Re.cat wsStar nlRe))))

/-- Pattern `\n\s*(?:Dispositivo|DISPOSITIVO)\s*\n` (flag i). -/
def dkDispositivo : Re :=
  Re.cat nlRe (Re.cat wsStar
    (Re.cat (Re.alt (reStr "Dispositivo") (reStr "DISPOSITIVO")) (Re.cat wsStar nlRe)))

/-- Pattern `\n\s*(?:Pelo\s+exposto|PELO\s+EXPOSTO)\s*[,.]` (flag i). -/
def dkPeloExposto : Re :=
  Re.cat nlRe (Re.cat wsStar (Re.cat
    (Re.alt (Re.cat (reStr "Pelo") (Re.cat wsPlus (reStr "exposto")))
            (Re.cat (reStr "PELO") (Re.cat wsPlus (reStr "EXPOSTO"))))
    (Re.cat wsStar (Re.cc CC5.commaDot))))

def keywordsDireito : List Re :=
  [kwFundDireito, kwApreciacao, kwODireito, kwQuestoes, kwCumpre,
   kwFundJuridica, kwEnquadramento]

def decisaoKeywords : List Re := [dkDecisao, dkDispositivo, dkPeloExposto]

/-- The `for (const regex of keywordsDireito)` loop with `break` on the
first pattern that has a match. -/
def findStartIdx : List Re → List Char → Option Nat
  | [], _ => none
  | r :: rs, t =>
    match reFirstIdx r t with
    | some i => some i
    | none => findStartIdx rs t

/-- The `for (const dRegex of decisaoKeywords)` loop: the first pattern
whose leftmost match index exceeds 800 truncates (and trims) there; a
pattern matching at or before 800 does not truncate and the loop goes on. -/
def truncAtDecisao : List Re → List Char → List Char
  | [], f => f
  | r :: rs, f =>
    match reFirstIdx r f with
    | some i => if 800 < i then jsTrim (f.take i) else truncAtDecisao rs f
    | none => truncAtDecisao rs f

/-- The `fundamentacao` computation of `parserService.ts` lines 48-81: when
some reasoning header matches, take the text from its index, trim, and
apply the decision-header truncation; otherwise skip the first 6000
characters (the whole text when shorter), with no truncation. -/
def fundamentacaoV1 (textoIntegral : List Char) : List Char :=
  match findStartIdx keywordsDireito textoIntegral with
  | some i => truncAtDecisao decisaoKeywords (jsTrim (textoIntegral.drop i))
  | none => if 6000 < textoIntegral.length then textoIntegral.drop 6000 else textoIntegral

/-- The computation described by claim C5: the same header search and
fallback, but with the decision-header truncation applied to the isolated
start in both branches. -/
def fundamentacaoClaimed (t : List Char) : List Char :=
  truncAtDecisao decisaoKeywords
    (match findStartIdx keywordsDireito t with
     | some i => jsTrim (t.drop i)
     | none => if 6000 < t.length then t.drop 6000 else t)

def c5cex : List Char :=
  List.replicate 900 'a' ++ ['\n'] ++ "Decisão".data ++ ['\n'] ++ List.replicate 50 'b'

/-- Claim C5 is false as stated: on `c5cex` (900 filler characters, a
`Decisão` header line at index 900, 50 trailing characters) no reasoning
header matches, so the code takes the whole text (shorter than 6000) and —
unlike the claim's description — applies no decision-header truncation,
even though the decision header matches at index 900 > 800. -/
theorem c5_counterexample :
    findStartIdx keywordsDireito c5cex = none ∧
    reFirstIdx dkDecisao c5cex = some 900 ∧
    fundamentacaoV1 c5cex = c5cex ∧
    fundamentacaoV1 c5cex ≠ fundamentacaoClaimed c5cex := by
  refine ⟨by decide, by decide, by decide, by decide⟩

/-- Claim C5, amended: the isolated start is found exactly as claimed
(ordered priority list, first pattern with a match; else the text past the
6000-character prefix, or the whole text when shorter); the truncation at
the first decision header past offset 800 is applied only when a reasoning
header matched — in the fallback branch the code performs no truncation,
whereas the claimed computation would truncate there too. -/
theorem c5_amended :
    (∀ t : List Char, ∀ i : Nat, findStartIdx keywordsDireito t = some i →
      fundamentacaoV1 t = fundamentacaoClaimed t) ∧
    (∀ t : List Char, findStartIdx keywordsDireito t = none →
      fundamentacaoV1 t = (if 6000 < t.length then t.drop 6000 else t) ∧
      fundamentacaoClaimed t =
        truncAtDecisao decisaoKeywords (if 6000 < t.length then t.drop 6000 else t)) := by
  constructor
  · intro t i h
    simp only [fundamentacaoV1, fundamentacaoClaimed, h]
  · intro t h
    simp only [fundamentacaoV1, fundamentacaoClaimed, h]
    exact ⟨trivial, trivial⟩

def c5wit : List Char := ['x', '\n'] ++ "Apreciação".data ++ ['\n'] ++ "yy".data

/-- Witness for `c5_amended`: a text whose `Apreciação` header matches at
index 1, and a short header-free text for the fallback branch. -/
theorem c5_amended_witness :
    fundamentacaoV1 c5wit = fundamentacaoClaimed c5wit ∧
    fundamentacaoV1 "abc".data =
      (if 6000 < "abc".data.length then "abc".data.drop 6000 else "abc".data) := by
  exact ⟨c5_amended.1 c5wit 1 (by decide), (c5_amended.2 "abc".data (by decide)).1⟩

end Captura
